import Mathlib

/-!
Shallow embedding of `testutil/vault.go` (package `testutil` of the nomad
repository): the TestVault fixture that launches a dev-mode Vault server
for tests, with its retry loop, readiness poller, exit watcher and Stop
teardown.  Effectful Go code is modelled as pure state passing: the
external world (process start results, the exit-versus-timeout race,
status-endpoint polls, the backoff randomness and the start-timeout
multiplier) is an explicit `Env` record, and observable actions of `Stop`
are collected in an event trace.
-/

namespace NomadTestutil

/-- Go `error` values as they are distinguished by this code: `Stop`
checks `errors.Is(err, os.ErrProcessDone)`; every other error is opaque
and carried as a message string. -/
inductive GoError where
  | processDone
  | msg (s : String)
deriving DecidableEq, Repr

/-- Destinations a command output stream can be attached to in this file:
`testlog.NewWriter(t)` (vault.go lines 62-63) or the `os.Stdout` /
`os.Stderr` of the test process (vault.go lines 151-152). -/
inductive Sink where
  | testlogWriter
  | osStdout
  | osStderr
deriving DecidableEq, Repr

/-- Model of `exec.Cmd`: the binary path, the argument vector after the
binary name, the two output sinks, and whether `Start` has been called
successfully (`processStarted` models `cmd.Process != nil`). -/
structure Cmd where
  path : String
  args : List String
  stdout : Option Sink := none
  stderr : Option Sink := none
  processStarted : Bool := false
deriving DecidableEq, Repr

/-- Model of `config.VaultConfig` restricted to the three fields this file
sets (vault.go lines 85-89); `Enabled` is a `*bool` in Go, hence `Option`. -/
structure VaultConfig where
  Enabled : Option Bool
  Token : String
  Addr : String
deriving DecidableEq, Repr

/-- Model of `vapi.Client`: the address it was built from and the token
set by `SetToken`. -/
structure Client where
  address : String
  token : String
deriving DecidableEq, Repr

/-- Model of `vapi.NewClient(conf)` where `conf.Address` has been set: a
client bound to the address with an empty token.  The Go constructor can
fail, in which case the source calls `t.Fatalf`; for the well-formed
`http://127.0.0.1:<port>` addresses built here it never does, so the
model is total. -/
def NewClient (addr : String) : Client :=
  { address := addr, token := "" }

/-- Model of `client.SetToken(token)`. -/
def Client.SetToken (c : Client) (tok : String) : Client :=
  { c with token := tok }

/-- Model of the `TestVault` struct (vault.go lines 28-42).  `waitCh`
records whether the completion channel has been created (non-nil);
`ports` is the slice stored in the struct field, which the Go code leaves
nil (`[]` here) when the constructor never assigns it. -/
structure TestVault where
  cmd : Cmd
  waitCh : Bool
  ports : List Nat
  Addr : String
  HTTPAddr : String
  RootToken : String
  Config : VaultConfig
  Client : Client
deriving DecidableEq, Repr

/-- Modelled from the spec: `uuid.Generate` (helper/uuid, not under src/)
returns a fresh random token on every call; modelled as a call-counter
indexed string, so distinct calls yield distinct counters. -/
def uuidGenerate (n : Nat) : String :=
  "uuid-" ++ toString n

/-- The `-dev-listen-address` flag string (vault.go line 57). -/
def bindArg (port : Nat) : String :=
  "-dev-listen-address=127.0.0.1:" ++ toString port

/-- The HTTP address string (vault.go line 58). -/
def httpAddr (port : Nat) : String :=
  "http://127.0.0.1:" ++ toString port

/-- The `-dev-root-token-id` flag string (vault.go line 59). -/
def rootArg (token : String) : String :=
  "-dev-root-token-id=" ++ token

/-- The command both constructors build (vault.go lines 61-63 and
150-152): `exec.Command(binary, "server", "-dev", bind, root)` with the
two output streams attached; the Go `Args` tail after the binary name. -/
def buildCmd (binary : String) (port : Nat) (token : String) (o e : Sink) : Cmd :=
  { path := binary, args := ["server", "-dev", bindArg port, rootArg token],
    stdout := some o, stderr := some e, processStarted := false }

/-- Result of one `InitStatus` query against the status endpoint: either
a transport-level failure or a successful response carrying the
initialized flag. -/
inductive PollRes where
  | ok (inited : Bool)
  | fail (e : GoError)
deriving DecidableEq, Repr

/-- True when the poll is a successful response reporting initialized. -/
def PollRes.ready : PollRes → Bool
  | .ok true => true
  | _ => false

/-- The error component of a poll, as the Go test function returns it:
`some e` for a transport failure, `none` for a successful response. -/
def PollRes.errOf : PollRes → Option GoError
  | .fail e => some e
  | .ok _ => none

/-- Modelled from the spec: `WaitForResult` (testutil wait helper, not
under src/) issues the test function in a loop with a fixed inter-attempt
delay until it reports success or an overall deadline elapses, after
which the error handler receives the most recent error.  The deadline is
modelled as a retry budget `b` (number of further polls allowed); `k` is
the index of the current poll.  Returns `none` on success and the most
recent test error once the budget is exhausted. -/
def WaitForResult (test : Nat → Bool × Option GoError) : Nat → Nat → Option GoError
  | 0, k =>
    let r := test k
    if r.1 then none else r.2
  | b + 1, k =>
    let r := test k
    if r.1 then none else WaitForResult test b (k + 1)

/-- The test function `waitForAPI` hands to `WaitForResult` (vault.go
lines 238-243): an `InitStatus` error is reported as not-ready together
with the error, a successful response reports its initialized flag. -/
def apiTest (status : Nat → PollRes) (k : Nat) : Bool × Option GoError :=
  match status k with
  | .fail e => (false, some e)
  | .ok b => (b, none)

/-- Model of `(*TestVault).waitForAPI` (vault.go lines 236-248): polls
`Client.Sys().InitStatus()` through `WaitForResult`.  The stream of
`InitStatus` results is the abstract `status` function; `budget` is the
deadline expressed in polls. -/
def waitForAPI (budget : Nat) (status : Nat → PollRes) : Option GoError :=
  WaitForResult (apiTest status) budget 0

/-- The external world as seen by `NewTestVaultFromPath`: per launch
attempt `k`, the result of `cmd.Start()` (`none` = success), the outcome
of the select between the exit watcher channel and the start timeout
(`race k t`: `some w` means the channel delivered the wait result `w`
before the `t` milliseconds elapsed, `none` means the timeout fired
first), the per-attempt stream of status polls with the readiness budget,
the `rand.Int31n` source, and the value of `TestMultiplier()` (a wait
helper not under src/, modelled from the spec as a configurable
multiplier). -/
structure Env where
  start : Nat → Option GoError
  race : Nat → Nat → Option (Option GoError)
  initStatus : Nat → Nat → PollRes
  pollBudget : Nat
  rand : Nat → Nat
  multiplier : Nat

/-- How one iteration of the retry loop ended. -/
inductive AttemptOutcome where
  | startFatal (e : GoError)
  | earlyExit (e : GoError)
  | notReady (e : GoError)
  | ok
deriving DecidableEq, Repr

/-- Record of one iteration of the retry loop (vault.go lines 52-128):
loop index `i` (counting 10 down to 0), attempt number `idx` (0-based),
the port taken from freeport, the uuid-counter value and token string,
the command as built (before `Start`), the start timeout passed to the
select when the race was reached, the outcome, and the backoff sleep in
milliseconds when the failure was treated as transient. -/
structure Attempt where
  idx : Nat
  i : Nat
  port : Nat
  tokenId : Nat
  token : String
  cmd : Cmd
  timeoutMs : Option Nat
  outcome : AttemptOutcome
  sleepMs : Option Nat
deriving DecidableEq, Repr

/-- Whether this attempt failed after a successful process start (early
exit or readiness failure) while retry budget remained — the source then
sleeps and continues (vault.go lines 112-115 and 121-124). -/
def Attempt.transient (a : Attempt) : Bool :=
  (match a.outcome with
    | .earlyExit _ => true
    | .notReady _ => true
    | _ => false) && a.i != 0

/-- Classification of one loop body execution before the loop decides
between fatal abort and retry. -/
inductive StepRes where
  | startFatal (e : GoError) (a : Attempt)
  | failed (e : GoError) (a : Attempt)
  | passed (tv : TestVault) (a : Attempt)

/-- Final result of construction: `t.Fatalf` aborts the test with the
underlying error, or a live fixture is returned. -/
inductive Outcome where
  | fatal (e : GoError)
  | success (tv : TestVault)
deriving DecidableEq, Repr

/-- Result of the retry loop: the attempts made in order, every port
taken from freeport during construction, and the outcome. -/
structure LoopRes where
  attempts : List Attempt
  takenPorts : List Nat
  outcome : Outcome
deriving DecidableEq, Repr

/-- The `TestVault` struct as both constructors populate it (vault.go
lines 77-90 and 166-178): command, addresses, token, config and a client
bound to the HTTP address with the token set; `waitCh` not yet created. -/
def freshTV (binary : String) (port : Nat) (token : String) (o e : Sink)
    (ports : List Nat) : TestVault :=
  { cmd := buildCmd binary port token o e, waitCh := false, ports := ports,
    Addr := bindArg port, HTTPAddr := httpAddr port, RootToken := token,
    Config := { Enabled := some true, Token := token, Addr := httpAddr port },
    Client := Client.SetToken (NewClient (httpAddr port)) token }

/-- The fixture after a successful `cmd.Start()` and creation of `waitCh`
in the eager path (vault.go lines 92-101). -/
def startedTV (binary : String) (port : Nat) (token : String)
    (ports : List Nat) : TestVault :=
  { freshTV binary port token .testlogWriter .testlogWriter ports with
    cmd := { buildCmd binary port token .testlogWriter .testlogWriter with
             processStarted := true },
    waitCh := true }

/-- The `startErr` observed by the select race (vault.go lines 104-108):
the value received from `waitCh` when the watcher fires before the start
timeout `t`, and nil when the timeout fires first. -/
def raceErr (env : Env) (k t : Nat) : Option GoError :=
  match env.race k t with
  | some w => w
  | none => none

/-- The attempt record before the outcome is known: attempt `k` at loop
index `i`, using port `pc` and uuid counter `uc`, with the eager-path
command (both streams on the testlog writer). -/
def baseAttempt (binary : String) (i k pc uc : Nat) : Attempt :=
  { idx := k, i := i, port := pc, tokenId := uc, token := uuidGenerate uc,
    cmd := buildCmd binary pc (uuidGenerate uc) .testlogWriter .testlogWriter,
    timeoutMs := none, outcome := .ok, sleepMs := none }

/-- One iteration body of `NewTestVaultFromPath` (vault.go lines 54-125),
up to but excluding the fatal-versus-retry decision for failures after a
successful start: take the next port (`pc` is the freeport counter,
modelled from the spec contract that acquired-and-unreleased ports are
exclusive, hence counter-fresh), generate a token (`uc` the uuid
counter), build command, config and client, start the process, run the
select race at `500 * TestMultiplier()` milliseconds and then the
readiness poll.  A `cmd.Start()` error is `t.Fatalf` on any iteration
(vault.go lines 92-94), so it is its own constructor.  `portsSnapshot`
is the ports slice as stored into the struct (it already contains this
iteration's port, vault.go lines 54 and 80). -/
def attemptStep (env : Env) (binary : String) (i k pc uc : Nat)
    (portsSnapshot : List Nat) : StepRes :=
  let token := uuidGenerate uc
  let base := baseAttempt binary i k pc uc
  match env.start k with
  | some e => .startFatal e { base with outcome := .startFatal e }
  | none =>
    let tms := 500 * env.multiplier
    match raceErr env k tms with
    | some e =>
      .failed e { base with timeoutMs := some tms, outcome := .earlyExit e }
    | none =>
      match waitForAPI env.pollBudget (env.initStatus k) with
      | some e =>
        .failed e { base with timeoutMs := some tms, outcome := .notReady e }
      | none =>
        .passed (startedTV binary pc token portsSnapshot)
          { base with timeoutMs := some tms, outcome := .ok }

/-- The retry loop of `NewTestVaultFromPath` (vault.go lines 52-128),
recursing on the loop counter `i` (the source counts `i := 10; i >= 0;
i--`).  A start failure is fatal on any iteration; an early exit or
readiness failure is fatal when `i = 0` and otherwise sleeps
`rand.Int31n(2000)` milliseconds and retries with fresh port and token
counters.  `ports` accumulates every port taken, mirroring the closure
variable appended by `nextPort` (vault.go lines 45-50). -/
def loopGo (env : Env) (binary : String) :
    Nat → Nat → Nat → Nat → List Nat → List Attempt → LoopRes
  | 0, k, pc, uc, ports, acc =>
    let ports1 := ports ++ [pc]
    match attemptStep env binary 0 k pc uc ports1 with
    | .startFatal e a => ⟨acc ++ [a], ports1, .fatal e⟩
    | .failed e a => ⟨acc ++ [a], ports1, .fatal e⟩
    | .passed tv a => ⟨acc ++ [a], ports1, .success tv⟩
  | i + 1, k, pc, uc, ports, acc =>
    let ports1 := ports ++ [pc]
    match attemptStep env binary (i + 1) k pc uc ports1 with
    | .startFatal e a => ⟨acc ++ [a], ports1, .fatal e⟩
    | .failed _ a =>
      let s := env.rand k % 2000
      loopGo env binary i (k + 1) (pc + 1) (uc + 1) ports1
        (acc ++ [{ a with sleepMs := some s }])
    | .passed tv a => ⟨acc ++ [a], ports1, .success tv⟩

/-- Model of `NewTestVaultFromPath` (vault.go lines 44-132): the retry
loop starting at `i = 10` with fresh freeport and uuid counters. -/
def NewTestVaultFromPath (env : Env) (binary : String) : LoopRes :=
  loopGo env binary 10 0 0 0 [] []

/-- Model of `NewTestVault` (vault.go lines 135-138): looks the binary up
on the path under the name `vault`. -/
def NewTestVault (env : Env) : LoopRes :=
  NewTestVaultFromPath env "vault"

/-- Model of `NewTestVaultDelayed` (vault.go lines 143-181): takes one
port from freeport, builds the command with output attached to
`os.Stdout` and `os.Stderr`, builds config and client, and returns the
fixture without starting anything.  The struct field `ports` is never
assigned (it stays nil, `[]` here); the second component records the
ports acquired from freeport by this constructor, for resource
bookkeeping.  `p0` and `u0` are the freeport and uuid counters. -/
def NewTestVaultDelayed (p0 u0 : Nat) : TestVault × List Nat :=
  (freshTV "vault" p0 (uuidGenerate u0) .osStdout .osStderr [], [p0])

/-- The writes to `waitCh` performed by the watcher goroutine spawned in
`NewTestVaultFromPath` (vault.go lines 98-101): exactly one, the result
of `cmd.Wait()`. -/
def watcherWritesFromPath (waitRes : Option GoError) : List (Option GoError) :=
  [waitRes]

/-- The writes to `waitCh` performed by the goroutine spawned in `Start`
(vault.go lines 189-198): the start error when `cmd.Start()` fails (then
the goroutine returns), otherwise the result of `cmd.Wait()`. -/
def watcherWritesStart (startRes waitRes : Option GoError) : List (Option GoError) :=
  match startRes with
  | some e => [some e]
  | none => [waitRes]

/-- The single value the watcher of `Start` makes available on `waitCh`. -/
def watcherValue (startRes waitRes : Option GoError) : Option GoError :=
  match startRes with
  | some e => some e
  | none => waitRes

/-- Model of `(*TestVault).Start` (vault.go lines 185-208): spawn the
watcher, race its channel against the start timeout (`raceFires` true
means the channel delivered before the timeout), and on surviving the
timeout run the readiness poll.  `startRes` and `waitRes` are the results
of `cmd.Start()` and `cmd.Wait()`; `status` and `budget` drive
`waitForAPI`. -/
def TestVault.Start (_tv : TestVault) (startRes waitRes : Option GoError)
    (raceFires : Bool) (budget : Nat) (status : Nat → PollRes) : Option GoError :=
  if raceFires then watcherValue startRes waitRes
  else waitForAPI budget status

/-- Observable actions of `Stop`, in order: the kill signal, an error
report through `t.Errorf`, a hypothetical send on `waitCh` (never
performed by `Stop`; present so that its absence is a statement), a
successful receive from `waitCh`, the `require.Fail` timeout report, and
the deferred `freeport.Return` of the recorded ports. -/
inductive StopEv where
  | kill
  | errorf (e : GoError)
  | chanWrite (v : Option GoError)
  | waitChRecv
  | failTimeout
  | returnPorts (ps : List Nat)
deriving DecidableEq, Repr

/-- True on the event that sends on the completion channel. -/
def StopEv.isWrite : StopEv → Bool
  | .chanWrite _ => true
  | _ => false

/-- True on the deferred port-release event. -/
def StopEv.isReturn : StopEv → Bool
  | .returnPorts _ => true
  | _ => false

/-- The bounded wait of `Stop` (vault.go lines 224-231): only entered
when `waitCh` is non-nil; either the channel fires within one second or
`require.Fail` reports a termination timeout. -/
def stopWaitEvs (tv : TestVault) (waitFires : Bool) : List StopEv :=
  if tv.waitCh then (if waitFires then [.waitChRecv] else [.failTimeout]) else []

/-- The body of `Stop` before the deferred port release (vault.go lines
214-231): return immediately when no process was ever started
(`cmd.Process == nil`); otherwise kill, and on a kill error return
silently when the process is already done or report via `t.Errorf` and
fall through to the bounded wait.  `killRes` is the result of
`Process.Kill()` (`none` = success), `waitFires` whether `waitCh`
delivers within the one-second bound. -/
def stopCore (tv : TestVault) (killRes : Option GoError) (waitFires : Bool) :
    List StopEv :=
  if tv.cmd.processStarted = false then []
  else
    StopEv.kill ::
      (match killRes with
       | some .processDone => []
       | some (.msg s) => .errorf (.msg s) :: stopWaitEvs tv waitFires
       | none => stopWaitEvs tv waitFires)

/-- Model of `(*TestVault).Stop` (vault.go lines 211-232): the body
followed by the deferred `freeport.Return(tv.ports)`, which runs on every
exit path, last. -/
def TestVault.Stop (tv : TestVault) (killRes : Option GoError) (waitFires : Bool) :
    List StopEv :=
  stopCore tv killRes waitFires ++ [.returnPorts tv.ports]

/-- How many times port `p` is handed to `freeport.Return` across a trace
of stop events. -/
def releasedCount (evs : List StopEv) (p : Nat) : Nat :=
  (evs.map fun ev =>
    match ev with
    | .returnPorts ps => ps.count p
    | _ => 0).sum

/-- Per-attempt invariant of the retry loop: the token is the one
generated from the recorded uuid counter, the command is exactly the
eager-path command for this port and token (unstarted), a recorded start
timeout is `500 * TestMultiplier()`, a recorded backoff sleep is
`rand.Int31n(2000)` of this attempt, and every transient failure did
record such a sleep. -/
def attemptInv (env : Env) (binary : String) (a : Attempt) : Prop :=
  a.token = uuidGenerate a.tokenId ∧
  a.cmd = buildCmd binary a.port a.token .testlogWriter .testlogWriter ∧
  (∀ t, a.timeoutMs = some t → t = 500 * env.multiplier) ∧
  (∀ s, a.sleepMs = some s → s = env.rand a.idx % 2000) ∧
  (a.transient = true → a.sleepMs = some (env.rand a.idx % 2000))

/-- An environment in which every launch succeeds and the very first
status poll reports initialized. -/
def envOk : Env :=
  { start := fun _ => none, race := fun _ _ => none,
    initStatus := fun _ _ => .ok true, pollBudget := 2,
    rand := fun _ => 0, multiplier := 1 }

/-- An environment in which `cmd.Start()` fails on every attempt, as when
the binary is absent from the path. -/
def envStartFail : Env :=
  { start := fun _ => some (.msg "file not found"), race := fun _ _ => none,
    initStatus := fun _ _ => .ok true, pollBudget := 0,
    rand := fun _ => 0, multiplier := 1 }

/-- An environment in which the first attempt sees the process exit
before the start timeout and the second attempt succeeds. -/
def envRetry : Env :=
  { start := fun _ => none,
    race := fun k _ => if k = 0 then some (some (.msg "early exit")) else none,
    initStatus := fun _ _ => .ok true, pollBudget := 1,
    rand := fun _ => 4242, multiplier := 3 }

/-- A status stream whose first poll fails at the transport level and
whose second poll reports initialized. -/
def statusLateReady : Nat → PollRes :=
  fun k => if k = 0 then .fail (.msg "connection refused") else .ok true

/-- A status stream that always fails at the transport level, with a
distinct error per poll. -/
def statusAlwaysFail : Nat → PollRes :=
  fun k => .fail (.msg ("refused-" ++ toString k))

/-- The fixture `NewTestVaultFromPath envRetry "vault"` returns: built on
the second attempt, with both taken ports recorded. -/
def tvRetry : TestVault :=
  startedTV "vault" 1 (uuidGenerate 1) [0, 1]

/-- The fixture `NewTestVaultDelayed 0 0` returns. -/
def tvDelayed0 : TestVault :=
  (NewTestVaultDelayed 0 0).1

/-- The first attempt of the `envRetry` run: an early exit answered by a
backoff sleep of `4242 % 2000` milliseconds. -/
def aRetry0 : Attempt :=
  { baseAttempt "vault" 10 0 0 0 with
    timeoutMs := some 1500, outcome := .earlyExit (.msg "early exit"),
    sleepMs := some 242 }

/-- The fixture `NewTestVaultFromPath envOk "vault"` returns on its first
attempt. -/
def tvOk : TestVault :=
  startedTV "vault" 0 (uuidGenerate 0) [0]

/-- The single, successful attempt of the `envOk` run. -/
def aOk0 : Attempt :=
  { baseAttempt "vault" 10 0 0 0 with timeoutMs := some 500, outcome := .ok }

/-- The property of the retry loop result established by induction:
attempts are appended in order, every taken port is recorded, ports and
uuid counters across the produced attempts are consecutive (hence
pairwise distinct), each attempt satisfies the per-attempt invariant,
and a successful outcome carries a fixture whose config and client agree
with its own fields and whose recorded ports are all taken ports. -/
def loopSpec (env : Env) (binary : String) (r : LoopRes) (pc uc : Nat)
    (ports : List Nat) (acc : List Attempt) : Prop :=
  ∃ L : List Attempt,
    r.attempts = acc ++ L ∧
    r.takenPorts = ports ++ L.map (fun a => a.port) ∧
    L.map (fun a => a.port) = List.range' pc L.length ∧
    L.map (fun a => a.tokenId) = List.range' uc L.length ∧
    (∀ a ∈ L, attemptInv env binary a) ∧
    (∀ tv, r.outcome = .success tv →
      tv.Config = { Enabled := some true, Token := tv.RootToken, Addr := tv.HTTPAddr } ∧
      tv.Client = { address := tv.HTTPAddr, token := tv.RootToken } ∧
      tv.ports = r.takenPorts)

end NomadTestutil

namespace NomadTestutil

lemma waitForResult_all_fail (test : Nat → Bool × Option GoError) :
    ∀ b k, (∀ j, j ≤ b → (test (k + j)).1 = false) →
      WaitForResult test b k = (test (k + b)).2 := by
  intro b
  induction b with
  | zero =>
    intro k h
    have h0 := h 0 (by omega)
    simp only [Nat.add_zero] at h0 ⊢
    simp [WaitForResult, h0]
  | succ b ih =>
    intro k h
    have h0 := h 0 (by omega)
    simp only [Nat.add_zero] at h0
    have hstep : WaitForResult test (b + 1) k = WaitForResult test b (k + 1) := by
      simp [WaitForResult, h0]
    rw [hstep, ih (k + 1) ?_]
    · have e : k + 1 + b = k + (b + 1) := by omega
      rw [e]
    · intro j hj
      have e : k + 1 + j = k + (j + 1) := by omega
      rw [e]
      exact h (j + 1) (by omega)

lemma waitForResult_first_success (test : Nat → Bool × Option GoError) :
    ∀ b k n, n ≤ b → (test (k + n)).1 = true →
      (∀ j, j < n → (test (k + j)).1 = false) →
      WaitForResult test b k = none := by
  intro b
  induction b with
  | zero =>
    intro k n hn ht _
    have hn0 : n = 0 := by omega
    subst hn0
    simp only [Nat.add_zero] at ht
    simp [WaitForResult, ht]
  | succ b ih =>
    intro k n hn ht hf
    cases n with
    | zero =>
      simp only [Nat.add_zero] at ht
      simp [WaitForResult, ht]
    | succ m =>
      have h0 : (test k).1 = false := by
        have := hf 0 (by omega)
        simpa using this
      have hstep : WaitForResult test (b + 1) k = WaitForResult test b (k + 1) := by
        simp [WaitForResult, h0]
      rw [hstep]
      refine ih (k + 1) m (by omega) ?_ ?_
      · have e : k + 1 + m = k + (m + 1) := by omega
        rw [e]
        exact ht
      · intro j hj
        have e : k + 1 + j = k + (j + 1) := by omega
        rw [e]
        exact hf (j + 1) (by omega)

lemma apiTest_fst (status : Nat → PollRes) (k : Nat) :
    (apiTest status k).1 = (status k).ready := by
  cases h : status k with
  | ok b => cases b <;> simp [apiTest, PollRes.ready, h]
  | fail e => simp [apiTest, PollRes.ready, h]

lemma apiTest_snd (status : Nat → PollRes) (k : Nat) :
    (apiTest status k).2 = (status k).errOf := by
  cases h : status k <;> simp [apiTest, PollRes.errOf, h]

lemma waitForAPI_all_fail (budget : Nat) (status : Nat → PollRes)
    (h : ∀ k, k ≤ budget → (status k).ready = false) :
    waitForAPI budget status = (status budget).errOf := by
  unfold waitForAPI
  rw [waitForResult_all_fail (apiTest status) budget 0 ?_]
  · simp [apiTest_snd]
  · intro j hj
    simp only [Nat.zero_add]
    rw [apiTest_fst]
    exact h j hj

lemma waitForAPI_first_success (budget n : Nat) (status : Nat → PollRes)
    (hn : n ≤ budget) (ht : (status n).ready = true)
    (hf : ∀ k, k < n → (status k).ready = false) :
    waitForAPI budget status = none := by
  unfold waitForAPI
  refine waitForResult_first_success (apiTest status) budget 0 n hn ?_ ?_
  · simp only [Nat.zero_add]
    rw [apiTest_fst]
    exact ht
  · intro j hj
    simp only [Nat.zero_add]
    rw [apiTest_fst]
    exact hf j hj

lemma attemptStep_start_some (env : Env) (b : String) (i k pc uc : Nat)
    (ps : List Nat) (e : GoError) (h : env.start k = some e) :
    attemptStep env b i k pc uc ps =
      .startFatal e { baseAttempt b i k pc uc with outcome := .startFatal e } := by
  simp [attemptStep, h]

lemma attemptStep_early (env : Env) (b : String) (i k pc uc : Nat)
    (ps : List Nat) (e : GoError) (h : env.start k = none)
    (h2 : raceErr env k (500 * env.multiplier) = some e) :
    attemptStep env b i k pc uc ps =
      .failed e { baseAttempt b i k pc uc with
        timeoutMs := some (500 * env.multiplier), outcome := .earlyExit e } := by
  simp [attemptStep, h, h2]

lemma attemptStep_notReady (env : Env) (b : String) (i k pc uc : Nat)
    (ps : List Nat) (e : GoError) (h : env.start k = none)
    (h2 : raceErr env k (500 * env.multiplier) = none)
    (h3 : waitForAPI env.pollBudget (env.initStatus k) = some e) :
    attemptStep env b i k pc uc ps =
      .failed e { baseAttempt b i k pc uc with
        timeoutMs := some (500 * env.multiplier), outcome := .notReady e } := by
  simp [attemptStep, h, h2, h3]

lemma attemptStep_passed (env : Env) (b : String) (i k pc uc : Nat)
    (ps : List Nat) (h : env.start k = none)
    (h2 : raceErr env k (500 * env.multiplier) = none)
    (h3 : waitForAPI env.pollBudget (env.initStatus k) = none) :
    attemptStep env b i k pc uc ps =
      .passed (startedTV b pc (uuidGenerate uc) ps)
        { baseAttempt b i k pc uc with
          timeoutMs := some (500 * env.multiplier), outcome := .ok } := by
  simp [attemptStep, h, h2, h3]

lemma attemptInv_startFatal (env : Env) (b : String) (i k pc uc : Nat)
    (e : GoError) :
    attemptInv env b { baseAttempt b i k pc uc with outcome := .startFatal e } := by
  simp [attemptInv, baseAttempt, Attempt.transient]

lemma attemptInv_final (env : Env) (b : String) (k pc uc : Nat)
    (oc : AttemptOutcome) :
    attemptInv env b { baseAttempt b 0 k pc uc with
      timeoutMs := some (500 * env.multiplier), outcome := oc } := by
  simp [attemptInv, baseAttempt, Attempt.transient]

lemma attemptInv_ok (env : Env) (b : String) (i k pc uc : Nat) :
    attemptInv env b { baseAttempt b i k pc uc with
      timeoutMs := some (500 * env.multiplier), outcome := .ok } := by
  simp [attemptInv, baseAttempt, Attempt.transient]

lemma attemptInv_retry (env : Env) (b : String) (i k pc uc : Nat)
    (oc : AttemptOutcome) :
    attemptInv env b { baseAttempt b i k pc uc with
      timeoutMs := some (500 * env.multiplier), outcome := oc,
      sleepMs := some (env.rand k % 2000) } := by
  simp [attemptInv, baseAttempt, Attempt.transient]

lemma loopGo_zero_eq (env : Env) (b : String) (k pc uc : Nat)
    (ports : List Nat) (acc : List Attempt) :
    loopGo env b 0 k pc uc ports acc =
      match attemptStep env b 0 k pc uc (ports ++ [pc]) with
      | .startFatal e a => ⟨acc ++ [a], ports ++ [pc], .fatal e⟩
      | .failed e a => ⟨acc ++ [a], ports ++ [pc], .fatal e⟩
      | .passed tv a => ⟨acc ++ [a], ports ++ [pc], .success tv⟩ := rfl

lemma loopGo_succ_eq (env : Env) (b : String) (i k pc uc : Nat)
    (ports : List Nat) (acc : List Attempt) :
    loopGo env b (i + 1) k pc uc ports acc =
      match attemptStep env b (i + 1) k pc uc (ports ++ [pc]) with
      | .startFatal e a => ⟨acc ++ [a], ports ++ [pc], .fatal e⟩
      | .failed _ a =>
        loopGo env b i (k + 1) (pc + 1) (uc + 1) (ports ++ [pc])
          (acc ++ [{ a with sleepMs := some (env.rand k % 2000) }])
      | .passed tv a => ⟨acc ++ [a], ports ++ [pc], .success tv⟩ := rfl

lemma loopSpec_terminal (env : Env) (b : String) (pc uc : Nat)
    (ports : List Nat) (acc : List Attempt) (A : Attempt) (o : Outcome)
    (hport : A.port = pc) (htok : A.tokenId = uc)
    (hinv : attemptInv env b A)
    (hsucc : ∀ tv, o = .success tv →
      tv.Config = { Enabled := some true, Token := tv.RootToken, Addr := tv.HTTPAddr } ∧
      tv.Client = { address := tv.HTTPAddr, token := tv.RootToken } ∧
      tv.ports = ports ++ [pc]) :
    loopSpec env b ⟨acc ++ [A], ports ++ [pc], o⟩ pc uc ports acc := by
  refine ⟨[A], rfl, ?_, ?_, ?_, ?_, ?_⟩
  · simp [hport]
  · simp [hport]
  · simp [htok]
  · intro a ha
    have : a = A := by simpa using ha
    subst this
    exact hinv
  · intro tv htv
    exact hsucc tv htv

lemma loopSpec_cons (env : Env) (b : String) (pc uc : Nat)
    (ports : List Nat) (acc : List Attempt) (A : Attempt) (r : LoopRes)
    (hport : A.port = pc) (htok : A.tokenId = uc)
    (hinv : attemptInv env b A)
    (h : loopSpec env b r (pc + 1) (uc + 1) (ports ++ [pc]) (acc ++ [A])) :
    loopSpec env b r pc uc ports acc := by
  obtain ⟨L, h1, h2, h3, h4, h5, h6⟩ := h
  refine ⟨A :: L, ?_, ?_, ?_, ?_, ?_, ?_⟩
  · simpa using h1
  · simpa [hport] using h2
  · simp [hport, h3, List.range'_succ]
  · simp [htok, h4, List.range'_succ]
  · intro a ha
    rcases List.mem_cons.mp ha with rfl | ha
    · exact hinv
    · exact h5 a ha
  · exact h6

lemma stopCore_mem (tv : TestVault) (k : Option GoError) (w : Bool) :
    ∀ ev ∈ stopCore tv k w,
      ev = .kill ∨ (∃ e, ev = .errorf e) ∨ ev = .waitChRecv ∨ ev = .failTimeout := by
  intro ev hev
  rcases tv with ⟨⟨p, ar, so, se, started⟩, wch, ports, A, H, R, C, Cl⟩
  cases started <;> cases wch <;> rcases k with _ | (_ | s) <;> cases w <;>
    simp [stopCore, stopWaitEvs] at hev <;> aesop

lemma stopCore_no_return (tv : TestVault) (k : Option GoError) (w : Bool) :
    ∀ ev ∈ stopCore tv k w, ev.isReturn = false := by
  intro ev hev
  rcases stopCore_mem tv k w ev hev with rfl | ⟨e, rfl⟩ | rfl | rfl <;> rfl

lemma stop_eq (tv : TestVault) (k : Option GoError) (w : Bool) :
    tv.Stop k w = stopCore tv k w ++ [.returnPorts tv.ports] := rfl

lemma stop_not_started (tv : TestVault) (k : Option GoError) (w : Bool)
    (hp : tv.cmd.processStarted = false) :
    tv.Stop k w = [.returnPorts tv.ports] := by
  simp [TestVault.Stop, stopCore, hp]

lemma stop_processDone (tv : TestVault) (w : Bool)
    (hp : tv.cmd.processStarted = true) :
    tv.Stop (some .processDone) w = [.kill, .returnPorts tv.ports] := by
  simp [TestVault.Stop, stopCore, hp]

lemma stop_no_write (tv : TestVault) (k : Option GoError) (w : Bool) :
    ∀ ev ∈ tv.Stop k w, ev.isWrite = false := by
  intro ev hev
  rw [stop_eq] at hev
  rcases List.mem_append.mp hev with h | h
  · rcases stopCore_mem tv k w ev h with rfl | ⟨e, rfl⟩ | rfl | rfl <;> rfl
  · have : ev = .returnPorts tv.ports := by simpa using h
    subst this
    rfl

lemma releasedCount_append (xs ys : List StopEv) (p : Nat) :
    releasedCount (xs ++ ys) p = releasedCount xs p + releasedCount ys p := by
  simp [releasedCount]

lemma releasedCount_eq_zero (evs : List StopEv)
    (h : ∀ ev ∈ evs, ev.isReturn = false) (p : Nat) :
    releasedCount evs p = 0 := by
  induction evs with
  | nil => simp [releasedCount]
  | cons e t ih =>
    have he := h e (by simp)
    have ht := ih fun ev hev => h ev (by simp [hev])
    cases e <;> simp_all [releasedCount, StopEv.isReturn]

lemma releasedCount_stop (tv : TestVault) (k : Option GoError) (w : Bool)
    (p : Nat) :
    releasedCount (tv.Stop k w) p = tv.ports.count p := by
  rw [stop_eq, releasedCount_append,
    releasedCount_eq_zero _ (stopCore_no_return tv k w) p]
  simp [releasedCount]

lemma stop_wait_events (tv : TestVault) (k : Option GoError) (w : Bool)
    (ev : StopEv) (hev : ev = StopEv.waitChRecv ∨ ev = StopEv.failTimeout)
    (hmem : ev ∈ tv.Stop k w) :
    tv.waitCh = true ∧ k ≠ some .processDone ∧ tv.cmd.processStarted = true := by
  rcases tv with ⟨⟨p, ar, so, se, started⟩, wch, ports, A, H, R, C, Cl⟩
  cases started <;> cases wch <;> rcases k with _ | (_ | s) <;> cases w <;>
    rcases hev with rfl | rfl <;>
      simp_all [TestVault.Stop, stopCore, stopWaitEvs]

lemma loopGo_start_fatal (env : Env) (b : String) (i k pc uc : Nat)
    (ports : List Nat) (acc : List Attempt) (e : GoError)
    (h : env.start k = some e) :
    loopGo env b i k pc uc ports acc =
      ⟨acc ++ [{ baseAttempt b i k pc uc with outcome := .startFatal e }],
       ports ++ [pc], .fatal e⟩ := by
  cases i with
  | zero => rw [loopGo_zero_eq, attemptStep_start_some env b 0 k pc uc _ e h]
  | succ i =>
    rw [loopGo_succ_eq, attemptStep_start_some env b (i + 1) k pc uc _ e h]

lemma loopGo_spec (env : Env) (b : String) :
    ∀ (i k pc uc : Nat) (ports : List Nat) (acc : List Attempt),
      loopSpec env b (loopGo env b i k pc uc ports acc) pc uc ports acc := by
  intro i
  induction i with
  | zero =>
    intro k pc uc ports acc
    rw [loopGo_zero_eq]
    rcases h1 : env.start k with _ | e
    · rcases h2 : raceErr env k (500 * env.multiplier) with _ | e2
      · rcases h3 : waitForAPI env.pollBudget (env.initStatus k) with _ | e3
        · rw [attemptStep_passed env b 0 k pc uc _ h1 h2 h3]
          refine loopSpec_terminal env b pc uc ports acc _ _ rfl rfl
            (attemptInv_ok env b 0 k pc uc) ?_
          intro tv htv
          cases htv
          refine ⟨rfl, rfl, rfl⟩
        · rw [attemptStep_notReady env b 0 k pc uc _ e3 h1 h2 h3]
          exact loopSpec_terminal env b pc uc ports acc _ _ rfl rfl
            (attemptInv_final env b k pc uc _) (fun tv htv => by cases htv)
      · rw [attemptStep_early env b 0 k pc uc _ e2 h1 h2]
        exact loopSpec_terminal env b pc uc ports acc _ _ rfl rfl
          (attemptInv_final env b k pc uc _) (fun tv htv => by cases htv)
    · rw [attemptStep_start_some env b 0 k pc uc _ e h1]
      exact loopSpec_terminal env b pc uc ports acc _ _ rfl rfl
        (attemptInv_startFatal env b 0 k pc uc e) (fun tv htv => by cases htv)
  | succ i ih =>
    intro k pc uc ports acc
    rw [loopGo_succ_eq]
    rcases h1 : env.start k with _ | e
    · rcases h2 : raceErr env k (500 * env.multiplier) with _ | e2
      · rcases h3 : waitForAPI env.pollBudget (env.initStatus k) with _ | e3
        · rw [attemptStep_passed env b (i + 1) k pc uc _ h1 h2 h3]
          refine loopSpec_terminal env b pc uc ports acc _ _ rfl rfl
            (attemptInv_ok env b (i + 1) k pc uc) ?_
          intro tv htv
          cases htv
          refine ⟨rfl, rfl, rfl⟩
        · rw [attemptStep_notReady env b (i + 1) k pc uc _ e3 h1 h2 h3]
          exact loopSpec_cons env b pc uc ports acc _ _ rfl rfl
            (attemptInv_retry env b (i + 1) k pc uc _)
            (ih (k + 1) (pc + 1) (uc + 1) (ports ++ [pc]) _)
      · rw [attemptStep_early env b (i + 1) k pc uc _ e2 h1 h2]
        exact loopSpec_cons env b pc uc ports acc _ _ rfl rfl
          (attemptInv_retry env b (i + 1) k pc uc _)
          (ih (k + 1) (pc + 1) (uc + 1) (ports ++ [pc]) _)
    · rw [attemptStep_start_some env b (i + 1) k pc uc _ e h1]
      exact loopSpec_terminal env b pc uc ports acc _ _ rfl rfl
        (attemptInv_startFatal env b (i + 1) k pc uc e) (fun tv htv => by cases htv)

lemma eager_release_exactly_once (env : Env) (b : String) (tv : TestVault)
    (hs : (NewTestVaultFromPath env b).outcome = .success tv)
    (k : Option GoError) (w : Bool) :
    ∀ p ∈ (NewTestVaultFromPath env b).takenPorts,
      releasedCount (tv.Stop k w) p = 1 := by
  obtain ⟨L, h1, h2, h3, h4, h5, h6⟩ := loopGo_spec env b 10 0 0 0 [] []
  intro p hp
  have hports : tv.ports = (NewTestVaultFromPath env b).takenPorts :=
    (h6 tv hs).2.2
  rw [releasedCount_stop, hports]
  have hnd : (NewTestVaultFromPath env b).takenPorts.Nodup := by
    show (loopGo env b 10 0 0 0 [] []).takenPorts.Nodup
    rw [h2]
    simp only [List.nil_append]
    rw [h3]
    exact List.nodup_range' 0 L.length
  exact List.count_eq_one_of_mem hnd hp

/-- Claim C1, counterexample: with a binary whose launch always fails
(`envStartFail`), construction makes exactly one attempt, not eleven, and
that attempt is fatal at loop index 10, not at index 0; launch failure is
never treated as transient. -/
theorem C1_counterexample :
    (NewTestVaultFromPath envStartFail "vault").attempts.length = 1 ∧
    (NewTestVaultFromPath envStartFail "vault").attempts.length ≠ 11 ∧
    (NewTestVaultFromPath envStartFail "vault").outcome =
      Outcome.fatal (.msg "file not found") ∧
    ∀ a ∈ (NewTestVaultFromPath envStartFail "vault").attempts,
      a.i = 10 ∧ a.outcome = .startFatal (.msg "file not found") := by
  decide

/-- Claim C1, amended: when `cmd.Start()` fails on the first attempt
(as when the binary is absent), `NewTestVaultFromPath` fails fatally on
that very first attempt (loop index 10), surfacing the underlying error;
launch failure is fatal on every attempt, not only on the final one. -/
theorem C1_launch_failure_fatal_first_attempt (env : Env) (b : String)
    (e : GoError) (h : env.start 0 = some e) :
    (NewTestVaultFromPath env b).attempts.length = 1 ∧
    (NewTestVaultFromPath env b).outcome = .fatal e ∧
    ∀ a ∈ (NewTestVaultFromPath env b).attempts,
      a.i = 10 ∧ a.outcome = .startFatal e := by
  have hrun : NewTestVaultFromPath env b =
      ⟨[{ baseAttempt b 10 0 0 0 with outcome := .startFatal e }],
       [0], .fatal e⟩ := by
    show loopGo env b 10 0 0 0 [] [] = _
    rw [loopGo_start_fatal env b 10 0 0 0 [] [] e h]
    simp
  rw [hrun]
  refine ⟨rfl, rfl, ?_⟩
  intro a ha
  have ha' : a = { baseAttempt b 10 0 0 0 with outcome := .startFatal e } := by
    simpa using ha
  subst ha'
  exact ⟨rfl, rfl⟩

/-- Claim C1, witness: the amended theorem applied to `envStartFail`. -/
theorem C1_witness :
    envStartFail.start 0 = some (.msg "file not found") ∧
    (NewTestVaultFromPath envStartFail "vault").outcome =
      Outcome.fatal (.msg "file not found") :=
  ⟨rfl, (C1_launch_failure_fatal_first_attempt envStartFail "vault"
    (.msg "file not found") rfl).2.1⟩

/-- Claim C2, code bug: `NewTestVaultDelayed` acquires one port from
freeport but never records it in the struct field `ports` (vault.go line
144 versus lines 33-35), so `Stop` releases it zero times instead of
exactly once; by contrast a fixture built by the eager path releases
every taken port exactly once. -/
theorem C2_delayed_port_never_released :
    (NewTestVaultDelayed 0 0).2 = [0] ∧
    (NewTestVaultDelayed 0 0).1.ports = [] ∧
    releasedCount (TestVault.Stop (NewTestVaultDelayed 0 0).1 none true) 0 = 0 ∧
    releasedCount (tvRetry.Stop none true) 0 = 1 ∧
    releasedCount (tvRetry.Stop none true) 1 = 1 :=
  ⟨rfl, rfl, rfl, rfl, rfl⟩

/-- Claim C3: when every poll within the deadline reports not-ready, the
poll returns the error of the most recent poll; transport errors before a
first initialized response are retried through to success; and `Start`
past the start race returns exactly the poll result (`none` on success). -/
theorem C3_readiness_returns_most_recent_error (budget : Nat)
    (status : Nat → PollRes) :
    ((∀ k, k ≤ budget → (status k).ready = false) →
      waitForAPI budget status = (status budget).errOf) ∧
    (∀ n, n ≤ budget → (status n).ready = true →
      (∀ k, k < n → (status k).ready = false) →
      waitForAPI budget status = none) ∧
    (∀ tv s w, TestVault.Start tv s w false budget status =
      waitForAPI budget status) :=
  ⟨waitForAPI_all_fail budget status,
   fun n hn ht hf => waitForAPI_first_success budget n status hn ht hf,
   fun _ _ _ => rfl⟩

/-- Claim C3, witness: a stream failing on every poll yields the last
error; a stream failing once then initialized yields success. -/
theorem C3_witness :
    waitForAPI 2 statusAlwaysFail = some (.msg "refused-2") ∧
    waitForAPI 3 statusLateReady = none := by
  constructor
  · have h := (C3_readiness_returns_most_recent_error 2 statusAlwaysFail).1
      (by decide)
    rw [h]
    rfl
  · exact (C3_readiness_returns_most_recent_error 3 statusLateReady).2.1 1
      (by decide) (by decide) (by decide)

/-- Claim C4: on every exit path of `Stop` the recorded ports are
released by the trailing deferred `freeport.Return`, after the kill
attempt and the bounded wait (no release event occurs earlier); when no
process was ever started, `Stop` is exactly the port release. -/
theorem C4_stop_releases_on_every_path (tv : TestVault)
    (k : Option GoError) (w : Bool) :
    tv.Stop k w = stopCore tv k w ++ [.returnPorts tv.ports] ∧
    (∀ ev ∈ stopCore tv k w, ev.isReturn = false) ∧
    (tv.cmd.processStarted = false → tv.Stop k w = [.returnPorts tv.ports]) :=
  ⟨rfl, stopCore_no_return tv k w, stop_not_started tv k w⟩

/-- Claim C4, witness: applied to a started fixture (the kill event is
not a release) and to a never-started fixture (immediate release). -/
theorem C4_witness :
    StopEv.kill.isReturn = false ∧
    tvDelayed0.Stop none true = [.returnPorts tvDelayed0.ports] :=
  ⟨(C4_stop_releases_on_every_path tvRetry none true).2.1 .kill (by decide),
   (C4_stop_releases_on_every_path tvDelayed0 none true).2.2 rfl⟩

/-- Claim C5: a kill failure caused by the process being already done
produces no error report and no timeout report, while a kill failure
with any other cause is reported through `t.Errorf`. -/
theorem C5_stop_already_exited_no_error (tv : TestVault) (w : Bool)
    (s : String) (hp : tv.cmd.processStarted = true) :
    (∀ e, StopEv.errorf e ∉ tv.Stop (some .processDone) w) ∧
    StopEv.failTimeout ∉ tv.Stop (some .processDone) w ∧
    StopEv.errorf (.msg s) ∈ tv.Stop (some (.msg s)) w := by
  have h1 := stop_processDone tv w hp
  refine ⟨?_, ?_, ?_⟩
  · intro e
    rw [h1]
    simp
  · rw [h1]
    simp
  · rw [stop_eq]
    simp [stopCore, hp]

/-- Claim C5, witness: applied to the started fixture of the retry run. -/
theorem C5_witness :
    StopEv.failTimeout ∉ tvRetry.Stop (some .processDone) true ∧
    StopEv.errorf (.msg "boom") ∈ tvRetry.Stop (some (.msg "boom")) true :=
  ⟨(C5_stop_already_exited_no_error tvRetry true "boom" rfl).2.1,
   (C5_stop_already_exited_no_error tvRetry true "boom" rfl).2.2⟩

/-- Claim C6, counterexample: the delayed constructor attaches the
command output to the stdout of the test process, not to a test-scoped
log sink, refuting the claim for the delayed path. -/
theorem C6_counterexample :
    (NewTestVaultDelayed 0 0).1.cmd.stdout = some Sink.osStdout ∧
    (NewTestVaultDelayed 0 0).1.cmd.stdout ≠ some Sink.testlogWriter :=
  ⟨rfl, by decide⟩

/-- Claim C6, amended: every built command invokes the binary with
exactly the arguments `server -dev -dev-listen-address=127.0.0.1:<port>
-dev-root-token-id=<token>` and is unstarted when built; the eager path
attaches both output streams to the test log sink, while the delayed
path attaches them to the stdout and stderr of the test process. -/
theorem C6_command_args_and_sinks (env : Env) (b : String) (p u : Nat) :
    (∀ a ∈ (NewTestVaultFromPath env b).attempts,
      a.cmd = buildCmd b a.port a.token .testlogWriter .testlogWriter ∧
      a.cmd.args = ["server", "-dev", bindArg a.port, rootArg a.token] ∧
      a.cmd.stdout = some .testlogWriter ∧
      a.cmd.stderr = some .testlogWriter ∧
      a.cmd.processStarted = false) ∧
    ((NewTestVaultDelayed p u).1.cmd =
       buildCmd "vault" p (uuidGenerate u) .osStdout .osStderr ∧
     (NewTestVaultDelayed p u).1.cmd.args =
       ["server", "-dev", bindArg p, rootArg (uuidGenerate u)] ∧
     (NewTestVaultDelayed p u).1.cmd.stdout = some .osStdout ∧
     (NewTestVaultDelayed p u).1.cmd.stderr = some .osStderr ∧
     (NewTestVaultDelayed p u).1.cmd.processStarted = false) := by
  obtain ⟨L, h1, h2, h3, h4, h5, h6⟩ := loopGo_spec env b 10 0 0 0 [] []
  have hL : (NewTestVaultFromPath env b).attempts = L := by
    show (loopGo env b 10 0 0 0 [] []).attempts = L
    rw [h1]
    simp
  constructor
  · intro a ha
    rw [hL] at ha
    have hc := (h5 a ha).2.1
    refine ⟨hc, ?_, ?_, ?_, ?_⟩ <;> rw [hc] <;> rfl
  · exact ⟨rfl, rfl, rfl, rfl, rfl⟩

/-- Claim C6, witness: the amended theorem applied to the successful
attempt of the `envOk` run. -/
theorem C6_witness :
    aOk0.cmd.args = ["server", "-dev", bindArg aOk0.port, rootArg aOk0.token] ∧
    aOk0.cmd.stdout = some Sink.testlogWriter :=
  ⟨((C6_command_args_and_sinks envOk "vault" 0 0).1 aOk0 (by decide)).2.1,
   ((C6_command_args_and_sinks envOk "vault" 0 0).1 aOk0 (by decide)).2.2.1⟩

/-- Claim C7: for every constructed fixture (eager success or delayed),
the config object is exactly enabled-true with the root token and the
HTTP address, and the client is bound to the HTTP address with the root
token set; all consistent with the fixture fields. -/
theorem C7_config_and_client_consistent (env : Env) (b : String) (p u : Nat) :
    (∀ tv, (NewTestVaultFromPath env b).outcome = .success tv →
      tv.Config =
        { Enabled := some true, Token := tv.RootToken, Addr := tv.HTTPAddr } ∧
      tv.Client = { address := tv.HTTPAddr, token := tv.RootToken }) ∧
    ((NewTestVaultDelayed p u).1.Config =
       { Enabled := some true, Token := (NewTestVaultDelayed p u).1.RootToken,
         Addr := (NewTestVaultDelayed p u).1.HTTPAddr } ∧
     (NewTestVaultDelayed p u).1.Client =
       { address := (NewTestVaultDelayed p u).1.HTTPAddr,
         token := (NewTestVaultDelayed p u).1.RootToken }) := by
  obtain ⟨L, h1, h2, h3, h4, h5, h6⟩ := loopGo_spec env b 10 0 0 0 [] []
  exact ⟨fun tv htv => ⟨(h6 tv htv).1, (h6 tv htv).2.1⟩, rfl, rfl⟩

/-- Claim C7, witness: applied to the fixture returned under `envOk`. -/
theorem C7_witness :
    tvOk.Config =
      { Enabled := some true, Token := tvOk.RootToken, Addr := tvOk.HTTPAddr } ∧
    tvOk.Client = { address := tvOk.HTTPAddr, token := tvOk.RootToken } :=
  (C7_config_and_client_consistent envOk "vault" 0 0).1 tvOk rfl

/-- Claim C8: across the retry loop no two attempts share a port or a
uuid counter, every start race recorded uses the timeout
`500 * TestMultiplier()` milliseconds, and every recorded backoff sleep
is `rand.Int31n(2000)` of that attempt, hence below 2000 ms; every
transient failure records such a sleep. -/
theorem C8_fresh_port_token_timeout_backoff (env : Env) (b : String) :
    ((NewTestVaultFromPath env b).attempts.map (fun a => a.port)).Nodup ∧
    ((NewTestVaultFromPath env b).attempts.map (fun a => a.tokenId)).Nodup ∧
    (∀ a ∈ (NewTestVaultFromPath env b).attempts,
      ∀ t, a.timeoutMs = some t → t = 500 * env.multiplier) ∧
    (∀ a ∈ (NewTestVaultFromPath env b).attempts,
      ∀ s, a.sleepMs = some s → s = env.rand a.idx % 2000 ∧ s < 2000) ∧
    (∀ a ∈ (NewTestVaultFromPath env b).attempts,
      a.transient = true → a.sleepMs = some (env.rand a.idx % 2000)) := by
  obtain ⟨L, h1, h2, h3, h4, h5, h6⟩ := loopGo_spec env b 10 0 0 0 [] []
  have hL : (NewTestVaultFromPath env b).attempts = L := by
    show (loopGo env b 10 0 0 0 [] []).attempts = L
    rw [h1]
    simp
  refine ⟨?_, ?_, ?_, ?_, ?_⟩
  · rw [hL, h3]
    exact List.nodup_range' 0 L.length
  · rw [hL, h4]
    exact List.nodup_range' 0 L.length
  · intro a ha t ht
    rw [hL] at ha
    exact (h5 a ha).2.2.1 t ht
  · intro a ha s hs
    rw [hL] at ha
    have heq := (h5 a ha).2.2.2.1 s hs
    have h2000 : env.rand a.idx % 2000 < 2000 := Nat.mod_lt _ (by norm_num)
    exact ⟨heq, by omega⟩
  · intro a ha htr
    rw [hL] at ha
    exact (h5 a ha).2.2.2.2 htr

/-- Claim C8, witness: applied to the transiently failing first attempt
of the `envRetry` run. -/
theorem C8_witness :
    (242 = envRetry.rand aRetry0.idx % 2000 ∧ 242 < 2000) ∧
    aRetry0.sleepMs = some (envRetry.rand aRetry0.idx % 2000) ∧
    1500 = 500 * envRetry.multiplier := by
  refine ⟨?_, ?_, ?_⟩
  · exact (C8_fresh_port_token_timeout_backoff envRetry "vault").2.2.2.1 aRetry0
      (by decide) 242 (by decide)
  · exact (C8_fresh_port_token_timeout_backoff envRetry "vault").2.2.2.2 aRetry0
      (by decide) (by decide)
  · exact (C8_fresh_port_token_timeout_backoff envRetry "vault").2.2.1 aRetry0
      (by decide) 1500 (by decide)

/-- Claim C9: each watcher writes exactly one value to the completion
channel (the wait result in the eager path; the start error or the wait
result in the delayed path), `Stop` performs no channel write, and the
start race only reads the single written value. -/
theorem C9_completion_signal_single_writer :
    (∀ w, (watcherWritesFromPath w).length = 1) ∧
    (∀ s w, (watcherWritesStart s w).length = 1) ∧
    (∀ s w, watcherWritesStart s w = [watcherValue s w]) ∧
    (∀ tv k w, ∀ ev ∈ TestVault.Stop tv k w, ev.isWrite = false) ∧
    (∀ tv s w budget status,
      TestVault.Start tv s w true budget status = watcherValue s w) := by
  refine ⟨fun w => rfl, ?_, ?_, ?_, fun tv s w budget status => rfl⟩
  · intro s w
    cases s <;> rfl
  · intro s w
    cases s <;> rfl
  · intro tv k w
    exact stop_no_write tv k w

/-- Claim C9, witness: the no-write clause applied to a concrete stop
trace. -/
theorem C9_witness : StopEv.kill.isWrite = false :=
  C9_completion_signal_single_writer.2.2.2.1 tvRetry none true .kill (by decide)

/-- Claim C10: when the kill reports the process already done, `Stop`
returns right after the kill and the deferred release, skipping the
bounded wait; a wait event can only occur when the channel exists, the
kill result is not process-done, and a process was started; the ports
are released on every path, including these early returns. -/
theorem C10_stop_wait_only_after_failed_kill (tv : TestVault)
    (k : Option GoError) (w : Bool) :
    (tv.cmd.processStarted = true →
      tv.Stop (some .processDone) w = [.kill, .returnPorts tv.ports]) ∧
    ((StopEv.waitChRecv ∈ tv.Stop k w ∨ StopEv.failTimeout ∈ tv.Stop k w) →
      tv.waitCh = true ∧ k ≠ some .processDone ∧
        tv.cmd.processStarted = true) ∧
    StopEv.returnPorts tv.ports ∈ tv.Stop k w := by
  refine ⟨stop_processDone tv w, ?_, ?_⟩
  · intro h
    rcases h with h | h
    · exact stop_wait_events tv k w _ (Or.inl rfl) h
    · exact stop_wait_events tv k w _ (Or.inr rfl) h
  · rw [stop_eq]
    exact List.mem_append_right _ (by simp)

/-- Claim C10, witness: applied to the started retry fixture and to the
never-started delayed fixture. -/
theorem C10_witness :
    tvRetry.Stop (some .processDone) true = [.kill, .returnPorts [0, 1]] ∧
    StopEv.returnPorts tvDelayed0.ports ∈
      tvDelayed0.Stop (some .processDone) false :=
  ⟨(C10_stop_wait_only_after_failed_kill tvRetry (some .processDone) true).1 rfl,
   (C10_stop_wait_only_after_failed_kill tvDelayed0 (some .processDone) false).2.2⟩

end NomadTestutil
